import Mathlib

/-!
# Cubane — resource resolution and mesh assembly: a shallow embedding

This file embeds, in Lean 4, the parts of the Cubane TypeScript sources that
the verified claims are about:

* `AssetLoader.getModel` (liquid-model synthesis, parent-chain merging),
  `AssetLoader.resolveTexture`, `AssetLoader.loadResourcePack` /
  `AssetLoader.dispose` with their cache state (src/AssetLoader.ts);
* `ModelResolver.resolveBlockModel` / `resolveVariants` / `resolveMultipart` /
  `matchesCondition` (src/types.ts), and the variant-property-filtering
  resolver of the same name in src/EntityRenderer.ts;
* `BlockMeshBuilder.createBlockMesh` / `createElementMesh` / `createFaceMesh` /
  `applyUVRotation` (src/BlockMeshBuilder.ts) and the top-level `getBlockMesh`
  pipeline (src/BlockMesh.ts).

JavaScript idioms are modelled explicitly: `String.replace(pat, "")` removes
only the *first* occurrence of `pat`; `x || y` treats the empty string as
falsy; `{...a, ...b}` lets the fields *present* on `b` win; archive lookups
return `Option`, a JSON parse that may throw is an inner `Option`, and a
statement that would throw a `TypeError` (such as indexing `[0]` into an empty
array) makes the surrounding computation return `none` in an `Option`/`Except`
result.  Archives are modelled as lookup functions from (already
`models/…json`-wrapped-free) paths to parse results.

Numbers occurring in model JSON are modelled as `ℚ`.
-/

namespace Cubane

/-! ## JS string primitives -/

/-- JS `s.startsWith(pre)`. -/
def jsStartsWith (s pre : String) : Bool := pre.data.isPrefixOf s.data

/-- Remove the first occurrence of `pat` from `s` (character lists).
JS `s.replace(pat, "")` for a plain-string `pat` replaces only the first
occurrence. -/
def removeFirstOcc : List Char → List Char → List Char
  | [], _ => []
  | c :: cs, pat =>
    if pat.isPrefixOf (c :: cs) then (c :: cs).drop pat.length
    else c :: removeFirstOcc cs pat

/-- JS `s.replace("minecraft:", "")`. -/
def stripMinecraft (s : String) : String := ⟨removeFirstOcc s.data "minecraft:".data⟩

/-- JS `s.substring(1)` (drop the leading character). -/
def jsDrop1 (s : String) : String := ⟨s.data.drop 1⟩

/-- JS `s.includes(c)` for a single-character needle. -/
def jsContainsChar (s : String) (c : Char) : Bool := s.data.contains c

/-- Split a character list at every occurrence of the character `sep`,
keeping empty segments — the semantics of JS `s.split(sep)`. -/
def splitCharAux (sep : Char) : List Char → List Char → List String
  | [], acc => [⟨acc.reverse⟩]
  | c :: cs, acc =>
    if c = sep then ⟨acc.reverse⟩ :: splitCharAux sep cs []
    else splitCharAux sep cs (c :: acc)

/-- JS `s.split(sep)` for a single-character separator. -/
def jsSplit (s : String) (sep : Char) : List String := splitCharAux sep s.data []

/-- JS `s.trim()`: strip leading and trailing whitespace. -/
def jsTrim (s : String) : String :=
  ⟨((s.data.dropWhile Char.isWhitespace).reverse.dropWhile Char.isWhitespace).reverse⟩

/-- Decimal digits to a natural number (`parseInt(ds, 10)` on a digit run). -/
def digitsToNat (ds : List Char) : Nat :=
  ds.foldl (fun n c => 10 * n + (c.toNat - 48)) 0

/-- First match of the regex `/_level_(\d+)/`: scan for the first position
where the literal `_level_` is followed by at least one digit, and parse the
maximal digit run after it. -/
def findLevel : List Char → Option Nat
  | [] => none
  | c :: cs =>
    if ("_level_".data.isPrefixOf (c :: cs)) then
      let ds := ((c :: cs).drop 7).takeWhile Char.isDigit
      if ds.isEmpty then findLevel cs else some (digitsToNat ds)
    else findLevel cs

/-- JS object spread `{...a, ...b}` on string-keyed string maps, as an
association list: keys of `a` (values overridden by `b` where present) in
order, then the keys of `b` that are new, in order. -/
def jsMergeObj (a b : List (String × String)) : List (String × String) :=
  (a.map fun kv => (kv.1, ((b.lookup kv.1).getD kv.2))) ++
    b.filter fun kv => (a.lookup kv.1).isNone

/-! ## The data model (src/types.ts) -/

/-- One face of a cuboid element (`FaceSpec`). -/
structure FaceSpec where
  texture : String
  cullface : Option String := none
  rotation : Option Int := none
  tintindex : Option Int := none
  uv : Option (ℚ × ℚ × ℚ × ℚ) := none
  deriving DecidableEq, Repr

/-- Source `rotation` field of an element. -/
structure ElemRotation where
  origin : ℚ × ℚ × ℚ
  axis : String
  angle : ℚ
  deriving DecidableEq, Repr

/-- One cuboid element of a model (`BlockModelElement`); `from`/`to` are in
the 0–16 unit cube.  `from` is a Lean keyword, hence `from_`/`to_`. -/
structure BlockModelElement where
  from_ : ℚ × ℚ × ℚ
  to_ : ℚ × ℚ × ℚ
  rotation : Option ElemRotation := none
  faces : Option (List (String × FaceSpec)) := none
  deriving DecidableEq, Repr

/-- A block model document (`BlockModel`); the `display` field is never read
by the code under verification and is omitted. -/
structure BlockModel where
  parent : Option String := none
  textures : Option (List (String × String)) := none
  elements : Option (List BlockModelElement) := none
  deriving DecidableEq, Repr

/-- Source `BlockStateModelHolder`. -/
structure Holder where
  model : String
  x : Option Int := none
  y : Option Int := none
  uvlock : Option Bool := none
  weight : Option Int := none
  deriving DecidableEq, Repr

/-- A variant (or multipart `apply`) value: a single holder or a weighted
list of holders. -/
inductive VariantVal where
  | single (h : Holder)
  | list (hs : List Holder)
  deriving DecidableEq, Repr

/-- A multipart `when` condition: a plain property map (AND of equalities,
`|`-joined alternatives inside a value) or an `{OR: [...]}` list. -/
inductive Condition where
  | simple (props : List (String × String))
  | or (conds : List (List (String × String)))
  deriving DecidableEq, Repr

/-- One multipart entry. -/
structure MultipartEntry where
  when : Option Condition := none
  apply : VariantVal
  deriving DecidableEq, Repr

/-- Source `BlockStateDefinition`. -/
structure BlockStateDefinition where
  variants : Option (List (String × VariantVal)) := none
  multipart : Option (List MultipartEntry) := none
  deriving DecidableEq, Repr

/-- A parsed block identifier. -/
structure Block where
  namespace_ : String := "minecraft"
  name : String
  properties : List (String × String) := []
  deriving DecidableEq, Repr

/-- Output of the model resolvers (`BlockModelData` / `ModelData`);
`createModelData` copies exactly `model`, `x`, `y`, `uvlock`. -/
structure BlockModelData where
  model : String
  x : Option Int := none
  y : Option Int := none
  uvlock : Option Bool := none
  deriving DecidableEq, Repr

/-- The content archives, as seen by `getBlockState` and `getModel`: a lookup
from a block id (already namespace-stripped) to the parse result of
`blockstates/<id>.json`, and from a model path to the parse result of
`models/<path>.json`.  The outer `Option` is "file found in some pack", the
inner `Option` is "JSON.parse succeeded". -/
structure Stores where
  blockstates : String → Option (Option BlockStateDefinition)
  models : String → Option (Option BlockModel)

/-- An archive with no resource pack loaded: every lookup misses. -/
def emptyStores : Stores := ⟨fun _ => none, fun _ => none⟩

/-! ## AssetLoader (src/AssetLoader.ts)

`getModel`, `loadAndMergeModel` and `resolveTexture` are modelled as pure
functions of the archive contents (`Stores`); the path-keyed caches only
memoize these computations and are modelled separately for the cache-lifecycle
claim. -/

namespace AssetLoader

/-- Depth cap shared by the parent-chain merge and texture dereferencing
(`MAX_DEPTH = 5` in both loops). -/
def MAX_DEPTH : Nat := 5

/-- The textures map of the synthesized liquid model. -/
def liquidTextures (isWater : Bool) : List (String × String) :=
  let still := if isWater then "block/water_still" else "block/lava_still"
  let flow := if isWater then "block/water_flow" else "block/lava_flow"
  [("particle", still), ("all", still), ("top", still), ("bottom", still),
   ("north", flow), ("south", flow), ("east", flow), ("west", flow)]

/-- The faces of the synthesized liquid element. -/
def liquidFaces : List (String × FaceSpec) :=
  [("down", { texture := "#bottom", cullface := some "down" }),
   ("up", { texture := "#top", cullface := some "up" }),
   ("north", { texture := "#north", cullface := some "north" }),
   ("south", { texture := "#south", cullface := some "south" }),
   ("west", { texture := "#west", cullface := some "west" }),
   ("east", { texture := "#east", cullface := some "east" })]

/-- The synthesized liquid element: from `[0,0,0]` to `[16, actualHeight, 16]`. -/
def liquidElement (actualHeight : ℚ) : BlockModelElement :=
  { from_ := (0, 0, 0), to_ := (16, actualHeight, 16), faces := some liquidFaces }

/-- The synthesized (pre-merge) liquid model. -/
def liquidModelBase (isWater : Bool) (actualHeight : ℚ) : BlockModel :=
  { textures := some (liquidTextures isWater),
    elements := some [liquidElement actualHeight] }

/-- One step of the parent merge:
`{...parentModel, ...currentModel, textures: {...parent.textures,
...current.textures}, elements: current.elements || parent.elements}`.
A field present on the child wins; the textures maps are merged with the
child's entries overriding; elements fall back to the parent's only when the
child has none (a present-but-empty array still counts as present in JS). -/
def spreadMerge (parentModel currentModel : BlockModel) : BlockModel :=
  { parent := currentModel.parent.or parentModel.parent,
    textures := some (jsMergeObj (parentModel.textures.getD [])
      (currentModel.textures.getD [])),
    elements := currentModel.elements.or parentModel.elements }

/-- The `while (parentPath && depth < MAX_DEPTH)` loop of `loadAndMergeModel`,
with `fuel = MAX_DEPTH - depth` remaining iterations.  A missing parent file
or a JSON parse error breaks out of the loop with the partial merge. -/
def mergeLoop (models : String → Option (Option BlockModel)) :
    Nat → BlockModel → String → BlockModel
  | 0, currentModel, _ => currentModel
  | fuel + 1, currentModel, parentPath =>
    if parentPath = "" then currentModel
    else
      let pp := stripMinecraft parentPath
      match models pp with
      | none => currentModel
      | some none => currentModel
      | some (some parentModel) =>
        mergeLoop models fuel (spreadMerge parentModel currentModel)
          (parentModel.parent.getD "")

/-- Source `loadAndMergeModel`: merge up the parent chain (at most `MAX_DEPTH`
steps), then delete the `parent` field from the result.  The early return
fires on an absent or empty parent (`if (!model.parent) return model`). -/
def loadAndMergeModel (models : String → Option (Option BlockModel))
    (model : BlockModel) : BlockModel :=
  if model.parent.getD "" = "" then model
  else { mergeLoop models MAX_DEPTH model (model.parent.getD "") with
         parent := none }

/-- Source `getModel` (fresh computation; the `modelCache` only memoizes it).
Liquid paths (`block/water*` / `block/lava*`) synthesize an element whose
height is derived from an embedded `_level_N` suffix; an original model file
(exact path, else the base `block/water`/`block/lava` for level variants)
contributes its textures (its entries winning the `Object.assign`) and — only
when there is no level suffix — its elements.  Ordinary paths parse the file
and merge the parent chain; a missing or unparsable file yields the empty
model `{}`. -/
def getModel (st : Stores) (modelPath0 : String) : BlockModel :=
  let modelPath := stripMinecraft modelPath0
  if jsStartsWith modelPath "block/water" || jsStartsWith modelPath "block/lava" then
    let isWater := jsStartsWith modelPath "block/water"
    let levelMatch := findLevel modelPath.data
    let level : Nat := levelMatch.getD 0
    let liquidHeight : Int := if level = 0 then 16 else 16 - (level : Int) * 2
    let actualHeight : Int := if isWater ∧ level = 0 then 14 else liquidHeight
    let lm := liquidModelBase isWater (actualHeight : ℚ)
    let contentOpt : Option (Option BlockModel) :=
      match st.models modelPath with
      | some c => some c
      | none =>
        if levelMatch.isSome then
          st.models (if isWater then "block/water" else "block/lava")
        else none
    match contentOpt with
    | some (some originalModel) =>
      { lm with
        textures :=
          if originalModel.textures.isSome then
            some (jsMergeObj (lm.textures.getD []) (originalModel.textures.getD []))
          else lm.textures,
        elements :=
          if originalModel.elements.isSome ∧ levelMatch.isNone then
            originalModel.elements
          else lm.elements }
    | some none => lm
    | none => lm
  else
    match st.models modelPath with
    | none => {}
    | some none => {}
    | some (some model) =>
      if model.parent.getD "" ≠ "" then loadAndMergeModel st.models model
      else model

/-- Sentinel path returned for unresolvable texture references. -/
def MISSING : String := "block/missing_texture"

/-- The `while (ref.startsWith("#") && depth < MAX_DEPTH)` dereference loop of
`resolveTexture`, with `fuel = MAX_DEPTH - depth`.  Returns `none` for the
in-loop early return when the model has no textures map, otherwise the final
reference together with the remaining fuel (`0` means the depth cap was
reached).  `model.textures[key] || ref` keeps `ref` both on a missing key and
on an empty-string value (falsy in JS). -/
def derefLoop (tx : Option (List (String × String))) :
    Nat → String → Option (String × Nat)
  | 0, ref => some (ref, 0)
  | fuel + 1, ref =>
    if jsStartsWith ref "#" then
      match tx with
      | none => none
      | some txl =>
        let key := jsDrop1 ref
        let ref2 :=
          match txl.lookup key with
          | some v => if v = "" then ref else v
          | none => ref
        derefLoop tx fuel ref2
    else some (ref, fuel + 1)

/-- Source `resolveTexture`: the empty reference and `"#missing"` give the sentinel;
a non-`#` reference is returned with its first `"minecraft:"` removed; a
`#name` reference is dereferenced through `model.textures` (cap `MAX_DEPTH`),
and hitting the cap (`depth >= MAX_DEPTH`) or ending on a `#` reference gives
the sentinel. -/
def resolveTexture (textureRef : String) (model : BlockModel) : String :=
  if textureRef = "" ∨ textureRef = "#missing" then MISSING
  else if ¬ jsStartsWith textureRef "#" then stripMinecraft textureRef
  else
    match derefLoop model.textures MAX_DEPTH textureRef with
    | none => MISSING
    | some (ref, remaining) =>
      if remaining = 0 ∨ jsStartsWith ref "#" then MISSING
      else stripMinecraft ref

/-! ### Cache state (for the lifecycle claim)

`AssetLoader` holds the pack list plus five caches.  Texture and material
cache values are GPU objects; only their presence matters here. -/

/-- A loaded resource-pack archive: entry path → text content. -/
structure PackFiles where
  files : List (String × String)

/-- The mutable state of one `AssetLoader` session. -/
structure AssetLoaderState where
  resourcePacks : List (String × PackFiles) := []
  resourcePackOrder : List String := []
  stringCache : List (String × String) := []
  blockStateCache : List (String × BlockStateDefinition) := []
  modelCache : List (String × BlockModel) := []
  textureCache : List (String × Unit) := []
  materialCache : List (String × Unit) := []

/-- Source `loadResourcePack`: register the archive and unshift its id to the front
of the priority order.  (`packId` stands for the generated `pack_${Date.now()}`
id.)  No cache is touched. -/
def loadResourcePack (s : AssetLoaderState) (packId : String) (zip : PackFiles) :
    AssetLoaderState :=
  { s with resourcePacks := s.resourcePacks ++ [(packId, zip)],
           resourcePackOrder := packId :: s.resourcePackOrder }

/-- Source `dispose`: clear every cache and drop all packs. -/
def dispose (_s : AssetLoaderState) : AssetLoaderState :=
  { resourcePacks := [], resourcePackOrder := [],
    stringCache := [], blockStateCache := [], modelCache := [],
    textureCache := [], materialCache := [] }

/-- Scan the packs in priority order for `assets/minecraft/<path>`. -/
def scanPacks (order : List String) (packs : List (String × PackFiles))
    (path : String) : Option String :=
  match order with
  | [] => none
  | packId :: rest =>
    match packs.lookup packId with
    | none => scanPacks rest packs path
    | some zip =>
      match zip.files.lookup ("assets/minecraft/" ++ path) with
      | some content => some content
      | none => scanPacks rest packs path

/-- Source `getResourceString` with its cache: a hit returns the cached content
unchanged; a miss scans the packs in priority order and populates the cache. -/
def getResourceStringS (s : AssetLoaderState) (path : String) :
    Option String × AssetLoaderState :=
  let cacheKey := "string:" ++ path
  match s.stringCache.lookup cacheKey with
  | some v => (some v, s)
  | none =>
    match scanPacks s.resourcePackOrder s.resourcePacks path with
    | some content =>
      (some content, { s with stringCache := s.stringCache ++ [(cacheKey, content)] })
    | none => (none, s)

end AssetLoader

/-! ## ModelResolver (src/types.ts)

The repository contains two resolvers of this name; this namespace embeds the
one in src/types.ts (default-cube fallbacks, candidate key built from all
block properties). -/

namespace ModelResolver

/-- Source `createModelData`: copy `model`, `x`, `y`, `uvlock` out of a holder. -/
def createModelData (h : Holder) : BlockModelData := ⟨h.model, h.x, h.y, h.uvlock⟩

/-- The default-cube entry. -/
def cubeData : BlockModelData := { model := "block/cube" }

/-- Lexicographic code-point comparison on character lists — the order JS
string comparison uses (identical to UTF-16 order on the ASCII keys in
play). -/
def charListLe : List Char → List Char → Bool
  | [], _ => true
  | _ :: _, [] => false
  | a :: as, b :: bs =>
    if a.toNat < b.toNat then true
    else if b.toNat < a.toNat then false
    else charListLe as bs

/-- JS `a <= b` on strings. -/
def jsStrLe (a b : String) : Bool := charListLe a.data b.data

/-- Insert into a sorted list of strings (ascending, stable). -/
def insertSorted (x : String) : List String → List String
  | [] => [x]
  | y :: ys => if jsStrLe x y then x :: y :: ys else y :: insertSorted x ys

/-- JS `Array.prototype.sort()` on strings: ascending lexicographic order on
code points (identical to UTF-16 order for the ASCII keys used here). -/
def sortStrings : List String → List String
  | [] => []
  | x :: xs => insertSorted x (sortStrings xs)

/-- Source `propertyStrings.sort().join(",")` over all block properties, or `""` when
there are none. -/
def buildVariantKey (props : List (String × String)) : String :=
  let propertyStrings := props.map fun kv => kv.1 ++ "=" ++ kv.2
  if propertyStrings.length > 0 then
    String.intercalate "," (sortStrings propertyStrings)
  else ""

/-- Source `processVariantModel`: a holder array is consumed at index 0 (deterministic
first pick); the JS `variant[0].model` access throws on an empty array, which
the embedding reports as `none`. -/
def processVariantModel : VariantVal → Option (List BlockModelData)
  | .single h => some [createModelData h]
  | .list [] => none
  | .list (h :: _) => some [createModelData h]

/-- The `variantKey` computed by `resolveVariants`: the empty-string variant
short-circuits the key build; otherwise the key over all properties, with a
single-property retry when the block has exactly one property. -/
def variantKeyOf (block : Block) (variants : List (String × VariantVal)) : String :=
  if (variants.lookup "").isSome then ""
  else
    let vk := buildVariantKey block.properties
    if (variants.lookup vk).isNone then
      match block.properties with
      | [(k, v)] =>
        let simpleKey := k ++ "=" ++ v
        if (variants.lookup simpleKey).isSome then simpleKey else vk
      | _ => vk
    else vk

/-- Source `resolveVariants`: look the computed key up, falling back to the
first variant in the map, then to the default cube. -/
def resolveVariants (block : Block) (blockState : BlockStateDefinition) :
    Option (List BlockModelData) :=
  match blockState.variants with
  | none => some [cubeData]
  | some variants =>
    match variants.lookup (variantKeyOf block variants) with
    | some variant => processVariantModel variant
    | none =>
      match variants.head? with
      | some kv => processVariantModel kv.2
      | none => some [cubeData]

/-- A `|`-joined condition value matches any one of its alternatives;
otherwise plain equality. -/
def condValueMatches (value blockValue : String) : Bool :=
  if jsContainsChar value '|' then (jsSplit value '|').contains blockValue
  else blockValue == value

/-- Source `matchesCondition`: every listed property must exist on the block and
match its (possibly `|`-joined) required value. -/
def matchesCondition (block : Block) (condition : List (String × String)) : Bool :=
  condition.all fun pv =>
    match block.properties.lookup pv.1 with
    | none => false
    | some blockValue => condValueMatches pv.2 blockValue

/-- The `when`-evaluation of one multipart entry: absent = always applies,
`{OR: [...]}` = any sub-condition matches, plain map = `matchesCondition`. -/
def multipartApplies (block : Block) : Option Condition → Bool
  | none => true
  | some (.or conds) => conds.any (matchesCondition block)
  | some (.simple c) => matchesCondition block c

/-- First element of an `apply` (array or single); `none` models the JS
TypeError on an empty array. -/
def applyFirst : VariantVal → Option BlockModelData
  | .single h => some (createModelData h)
  | .list [] => none
  | .list (h :: _) => some (createModelData h)

/-- The entry loop of `resolveMultipart`: collect the first `apply` model of
every entry whose condition holds, in entry order. -/
def collectParts (block : Block) : List MultipartEntry → Option (List BlockModelData)
  | [] => some []
  | part :: rest =>
    if multipartApplies block part.when then
      match applyFirst part.apply with
      | none => none
      | some d => (collectParts block rest).map (d :: ·)
    else collectParts block rest

/-- Source `resolveMultipart`: entry loop, then the default cube when no entry
matched. -/
def resolveMultipart (block : Block) (blockState : BlockStateDefinition) :
    Option (List BlockModelData) :=
  match blockState.multipart with
  | none => some [cubeData]
  | some multipart =>
    match collectParts block multipart with
    | none => none
    | some models => if models = [] then some [cubeData] else some models

/-- Source `getBlockState` (fresh computation): strip the namespace, look the id up,
and degrade a missing file or malformed JSON to the empty definition. -/
def getBlockState (st : Stores) (blockId : String) : BlockStateDefinition :=
  match st.blockstates (stripMinecraft blockId) with
  | some (some bsd) => bsd
  | _ => {}

/-- Source `resolveBlockModel` (src/types.ts): no definition → default cube; variants
take precedence over multipart. -/
def resolveBlockModel (st : Stores) (block : Block) : Option (List BlockModelData) :=
  let blockName := stripMinecraft block.name
  let bsd := getBlockState st blockName
  if bsd.variants.isNone ∧ bsd.multipart.isNone then some [cubeData]
  else
    match bsd.variants with
    | some _ => resolveVariants block bsd
    | none =>
      match bsd.multipart with
      | some _ => resolveMultipart block bsd
      | none => some [cubeData]

end ModelResolver

/-! ## The EntityRenderer.ts resolver

src/EntityRenderer.ts contains a second `ModelResolver` whose variant lookup
restricts the candidate key to property names that occur in some variant key.
Its multipart loop and `matchesCondition` are textually identical to the
src/types.ts ones, so those embeddings are shared. -/

namespace EntityResolver

open ModelResolver (createModelData applyFirst collectParts sortStrings)

/-- Property names extracted from the non-empty variant keys
(`part.split("=")[0]` for every comma-separated part). -/
def validVariantProperties (variantKeys : List String) : List String :=
  variantKeys.foldl (fun acc key =>
    if key = "" then acc
      else acc ++ (jsSplit key ',').map fun part => ((jsSplit part '=').headD "")) []

/-- The candidate key: the block's properties restricted to
`validVariantProperties`, formatted `k=v`, sorted, comma-joined (empty when
the block has no properties). -/
def buildVariantKey (props : List (String × String)) (validProps : List String) :
    String :=
  if props.length > 0 then
    let filteredProps :=
      (props.filter fun kv => validProps.contains kv.1).map fun kv =>
        kv.1 ++ "=" ++ kv.2
    String.intercalate "," (sortStrings filteredProps)
  else ""

/-- The single-property retry: the first block property `(k, v)` such that
`k=v` is a variant key. -/
def firstSingleProp (props : List (String × String))
    (variants : List (String × VariantVal)) : Option VariantVal :=
  match props with
  | [] => none
  | (k, v) :: rest =>
    match variants.lookup (k ++ "=" ++ v) with
    | some x => some x
    | none => firstSingleProp rest variants

/-- The variant chosen by the EntityRenderer resolver: exact candidate key,
then the empty-string variant, then any single-property match, then the first
variant in the map. -/
def chooseVariant (block : Block) (variants : List (String × VariantVal)) :
    Option VariantVal :=
  let validProps := validVariantProperties (variants.map (·.1))
  let variantKey := buildVariantKey block.properties validProps
  match variants.lookup variantKey with
  | some v => some v
  | none =>
    match variants.lookup "" with
    | some v => some v
    | none =>
      match firstSingleProp block.properties variants with
      | some v => some v
      | none => variants.head?.map (·.2)

/-- Source `resolveBlockModel` (src/EntityRenderer.ts): returns `[]` when there is no
definition; a variants section contributes the chosen variant's first holder,
then a multipart section appends its matching entries. -/
def resolveBlockModel (st : Stores) (block : Block) : Option (List BlockModelData) :=
  let blockName := stripMinecraft block.name
  let bsd := ModelResolver.getBlockState st blockName
  if bsd.variants.isNone ∧ bsd.multipart.isNone then some []
  else
    let variantsPart : Option (List BlockModelData) :=
      match bsd.variants with
      | none => some []
      | some variants =>
        match chooseVariant block variants with
        | none => some []
        | some v => (applyFirst v).map ([·])
    let multipartPart : Option (List BlockModelData) :=
      match bsd.multipart with
      | none => some []
      | some mp => collectParts block mp
    match variantsPart, multipartPart with
    | some a, some b => some (a ++ b)
    | _, _ => none

end EntityResolver

/-! ## BlockMeshBuilder (src/BlockMeshBuilder.ts)

Geometry is kept symbolically: a face mesh records the plane dimensions, its
offset from the element's center, the computed UV corner layout and the
resolved texture path; GPU-side material construction (THREE.Material) is an
external collaborator and is not part of the embedding. -/

/-- Does `sub` occur as a contiguous run inside `l`? -/
def containsSub : List Char → List Char → Bool
  | [], sub => sub.isEmpty
  | c :: cs, sub => sub.isPrefixOf (c :: cs) || containsSub cs sub

/-- JS `s.includes(sub)`. -/
def jsIncludes (s sub : String) : Bool := containsSub s.data sub.data

namespace BlockMeshBuilder

/-- Source `FACING_UV_ROT`: the fixed per-direction base UV rotation table (`?? 0`
for unknown keys). -/
def FACING_UV_ROT (direction : String) : Int :=
  if direction = "south" ∨ direction = "east" ∨ direction = "north" ∨
      direction = "west" ∨ direction = "up" ∨ direction = "down" then 180
  else 0

/-- The four-corner UV layout `[u0,v0, u1,v1, u2,v2, u3,v3]` for the plane
vertices bottom-left, bottom-right, top-left, top-right. -/
structure UVCoords where
  bl : ℚ × ℚ
  br : ℚ × ℚ
  tl : ℚ × ℚ
  tr : ℚ × ℚ
  deriving DecidableEq, Repr

/-- Source `applyUVRotation`: the in-place corner shuffle, as a pure function.  The
source's `switch` leaves the layout unchanged on any value other than
0/90/180/270 (after a `console.warn`). -/
def applyUVRotation (rotation : Int) (uv : UVCoords) : UVCoords :=
  if rotation = 0 then uv
  else if rotation = 90 then ⟨uv.tl, uv.bl, uv.tr, uv.br⟩
  else if rotation = 180 then ⟨uv.tr, uv.tl, uv.br, uv.bl⟩
  else if rotation = 270 then ⟨uv.br, uv.tr, uv.bl, uv.tl⟩
  else uv

/-- Source `getBaseUVs`: map the 0–1 UV rectangle to the four plane corners with the
vertical flip (`v → 1 - v`). -/
def getBaseUVs (u1 v1 u2 v2 : ℚ) : UVCoords :=
  ⟨(u1, 1 - v2), (u2, 1 - v2), (u1, 1 - v1), (u2, 1 - v1)⟩

/-- Source `mapUVCoordinates`: `none` when the face has no explicit `uv` (the default
plane UVs stay); otherwise normalize the 0–16 rectangle, and rotate by the
face rotation composed with the per-direction base rotation, mod 360. -/
def mapUVCoordinates (direction : String) (faceData : FaceSpec) : Option UVCoords :=
  match faceData.uv with
  | none => none
  | some (uMin, vMin, uMax, vMax) =>
    let uvCoords := getBaseUVs (uMin / 16) (vMin / 16) (uMax / 16) (vMax / 16)
    let baseRotation := FACING_UV_ROT direction
    let rot := ((faceData.rotation.getD 0) + baseRotation) % 360
    some (if rot ≠ 0 then applyUVRotation rot uvCoords else uvCoords)

/-- Source `isLiquidBlock`: the namespaced id contains `water` or `lava`. -/
def isLiquidBlock (b : Block) : Bool :=
  let blockId := b.namespace_ ++ ":" ++ b.name
  jsIncludes blockId "water" || jsIncludes blockId "lava"

/-- Source `isWaterBlock`: contains `water` but not `waterlogged`. -/
def isWaterBlock (b : Block) : Bool :=
  let blockId := b.namespace_ ++ ":" ++ b.name
  jsIncludes blockId "water" && !(jsIncludes blockId "waterlogged")

/-- Source `isLavaBlock`. -/
def isLavaBlock (b : Block) : Bool :=
  jsIncludes (b.namespace_ ++ ":" ++ b.name) "lava"

/-- One built face: plane dimensions, offset from the element center, UV
layout, and the resolved texture path (after the liquid overrides). -/
structure FaceMesh where
  direction : String
  width : ℚ
  height : ℚ
  position : ℚ × ℚ × ℚ
  uv : Option UVCoords
  texturePath : String
  deriving DecidableEq, Repr

/-- Source `createFaceMesh`: plane geometry and offset per direction (the `default:`
branch throws on an unknown direction), UV mapping, texture resolution and
the water/lava texture overrides.  Material construction (with its own
try/catch and wireframe fallback) is GPU-side and not modelled. -/
def createFaceMesh (direction : String) (size : ℚ × ℚ × ℚ) (faceData : FaceSpec)
    (model : BlockModel) (blockData : Option Block) :
    Except String FaceMesh := do
  let geom : ℚ × ℚ × (ℚ × ℚ × ℚ) ←
    if direction = "down" then .ok (size.1, size.2.2, (0, -size.2.1 / 2, 0))
    else if direction = "up" then .ok (size.1, size.2.2, (0, size.2.1 / 2, 0))
    else if direction = "north" then .ok (size.1, size.2.1, (0, 0, -size.2.2 / 2))
    else if direction = "south" then .ok (size.1, size.2.1, (0, 0, size.2.2 / 2))
    else if direction = "west" then .ok (size.2.2, size.2.1, (-size.1 / 2, 0, 0))
    else if direction = "east" then .ok (size.2.2, size.2.1, (size.1 / 2, 0, 0))
    else .error ("Unknown face direction: " ++ direction)
  let uv := mapUVCoordinates direction faceData
  let texturePath0 := AssetLoader.resolveTexture faceData.texture model
  let isWater := (blockData.map isWaterBlock).getD false
  let isLava := (blockData.map isLavaBlock).getD false
  let texturePath :=
    if isWater then
      if direction = "up" ∨ direction = "down" then "block/water_still"
      else "block/water_flow"
    else if isLava then
      if direction = "up" ∨ direction = "down" then "block/lava_still"
      else "block/lava_flow"
    else texturePath0
  .ok { direction, width := geom.1, height := geom.2.1, position := geom.2.2,
        uv, texturePath }

/-- One built element: its face meshes plus the scene-graph placement (the
rotation group's origin and the geometry group's offset inside it when the
element is rotated, else the element center). -/
structure ElementMesh where
  faces : List FaceMesh
  rotation : Option ElemRotation := none
  innerOffset : Option (ℚ × ℚ × ℚ) := none
  position : ℚ × ℚ × ℚ
  deriving DecidableEq, Repr

/-- The face loop of `createElementMesh`: the six directions in source order,
skipping absent faces; a face error propagates to the element. -/
def buildFaces (faces : List (String × FaceSpec)) (size : ℚ × ℚ × ℚ)
    (model : BlockModel) (blockData : Option Block) :
    List String → Except String (List FaceMesh)
  | [] => .ok []
  | d :: rest => do
    match faces.lookup d with
    | none => buildFaces faces size model blockData rest
    | some fd =>
      let fm ← createFaceMesh d size fd model blockData
      let ms ← buildFaces faces size model blockData rest
      .ok (fm :: ms)

/-- The six face directions, in the order the source iterates them. -/
def faceDirections : List String := ["down", "up", "north", "south", "west", "east"]

/-- Source `createElementMesh`: scale `from`/`to` to the unit cube, apply the
water-top override (`to.y := 14/16` when the block is water and the element's
original top is 16), build the present faces, and wrap in the rotation group
when the element is rotated.  (The JS `|| [0,0,0]` / `|| [16,16,16]` defaults
for absent `from`/`to` cannot fire on the typed element.) -/
def createElementMesh (element : BlockModelElement) (model : BlockModel)
    (blockData : Option Block) : Except String ElementMesh := do
  let fromJSON := element.from_
  let toJSON := element.to_
  let f : ℚ × ℚ × ℚ := (fromJSON.1 / 16, fromJSON.2.1 / 16, fromJSON.2.2 / 16)
  let t0 : ℚ × ℚ × ℚ := (toJSON.1 / 16, toJSON.2.1 / 16, toJSON.2.2 / 16)
  let waterAdjust := (blockData.map isWaterBlock).getD false && decide (toJSON.2.1 = 16)
  let t := if waterAdjust then (t0.1, (14 : ℚ) / 16, t0.2.2) else t0
  let size : ℚ × ℚ × ℚ := (t.1 - f.1, t.2.1 - f.2.1, t.2.2 - f.2.2)
  let center : ℚ × ℚ × ℚ :=
    (f.1 + size.1 / 2, f.2.1 + size.2.1 / 2, f.2.2 + size.2.2 / 2)
  let faces ←
    match element.faces with
    | none => .ok []
    | some fs => buildFaces fs size model blockData faceDirections
  match element.rotation with
  | some r =>
    let origin : ℚ × ℚ × ℚ := (r.origin.1 / 16, r.origin.2.1 / 16, r.origin.2.2 / 16)
    .ok { faces, rotation := some r,
          innerOffset := some
            (center.1 - origin.1, center.2.1 - origin.2.1, center.2.2 - origin.2.2),
          position := origin }
  | none => .ok { faces, rotation := none, innerOffset := none, position := center }

/-- The `transform` argument of `createBlockMesh`. -/
structure Transform where
  x : Option Int := none
  y : Option Int := none
  uvlock : Option Bool := none
  block : Option Block := none

/-- A produced scene object.  `placeholderCube` is the builder's clearly
marked magenta wireframe unit cube; `fallbackCube` is the analogous inline
fallback of `getBlockMesh` (src/BlockMesh.ts); `entityMesh` delegates to the
out-of-scope entity renderer. -/
inductive Obj where
  | placeholderCube
  | fallbackCube
  | entityMesh (entityType : String)
  | blockGroup (elements : List ElementMesh) (rotY rotX : Option Int)
      (blockData : Option Block) (biome : String)
  | multiGroup (objs : List Obj)

/-- Source `createBlockMesh`: no (or zero) elements → placeholder; each element is
built inside its own try/catch, a failed element is logged and skipped; if no
element survives, the placeholder is returned; otherwise the group, with the
block-state rotation applied to the whole group. -/
def createBlockMesh (model : BlockModel) (transform : Transform)
    (block : Option Block) (biome : String) : Obj :=
  match model.elements with
  | none => .placeholderCube
  | some [] => .placeholderCube
  | some es =>
    let blockData := block.or transform.block
    let children := es.filterMap fun e =>
      (createElementMesh e model blockData).toOption
    if children = [] then .placeholderCube
    else .blockGroup children transform.y transform.x blockData biome

end BlockMeshBuilder

/-! ## getBlockMesh (src/BlockMesh.ts) -/

namespace BlockMesh

/-- Insert-or-update with JS object semantics (an existing key keeps its
position, a new key is appended). -/
def jsObjInsert (l : List (String × String)) (k v : String) :
    List (String × String) :=
  if (l.lookup k).isSome then l.map fun kv => if kv.1 = k then (k, v) else kv
  else l ++ [(k, v)]

/-- Source `parseBlockString`: `ns:name[k=v,...]`; the namespace defaults to
`minecraft`; a property is kept when key and value are nonempty before
trimming, and stored trimmed. -/
def parseBlockString (blockString : String) : Block :=
  match jsSplit blockString ':' with
  | ns :: remaining :: _ =>
    let rd := remaining.data
    match rd.findIdx? (· = '[') with
    | none => { namespace_ := ns, name := remaining }
    | some i =>
      let name : String := ⟨rd.take i⟩
      let propertiesString : String := ⟨(rd.drop (i + 1)).dropLast⟩
      let props := (jsSplit propertiesString ',').foldl
        (fun acc prop =>
          match jsSplit prop '=' with
          | k :: v :: _ =>
            if k ≠ "" ∧ v ≠ "" then jsObjInsert acc (jsTrim k) (jsTrim v) else acc
          | _ => acc) []
      { namespace_ := ns, name := name, properties := props }
  | _ => { name := blockString }

/-- Source `BLOCK_ENTITY_MAP`. -/
def BLOCK_ENTITY_MAP : List (String × String) :=
  [("minecraft:chest", "chest"), ("minecraft:trapped_chest", "trapped_chest"),
   ("minecraft:ender_chest", "ender_chest"), ("minecraft:bell", "bell")]

/-- Source `getBlockMesh`: parse the block string; block entities go to the entity
renderer; otherwise resolve models (the whole body sits in a try/catch whose
catch returns the inline fallback cube, which a resolver TypeError therefore
reaches), load and build a mesh per model reference, and fall back to the
marked cube when nothing was produced.  src/BlockMesh.ts imports
`ModelResolver` from a file absent from the sources; the src/types.ts
`ModelResolver` (the same class name and signature) stands in. -/
def getBlockMesh (st : Stores) (blockString : String)
    (biome : String := "plains") : BlockMeshBuilder.Obj :=
  let block := parseBlockString blockString
  let blockId := block.namespace_ ++ ":" ++ block.name
  let entityType0 := BLOCK_ENTITY_MAP.lookup blockId
  let entityType :=
    if block.namespace_ = "entity" then some block.name else entityType0
  match entityType with
  | some t => .entityMesh t
  | none =>
    match ModelResolver.resolveBlockModel st block with
    | none => .fallbackCube
    | some [] => .fallbackCube
    | some modelDataList =>
      let objects := modelDataList.map fun md =>
        BlockMeshBuilder.createBlockMesh (AssetLoader.getModel st md.model)
          { x := md.x, y := md.y, uvlock := md.uvlock } (some block) biome
      match objects with
      | [] => .fallbackCube
      | [o] => o
      | os => .multiGroup os

end BlockMesh

/-! ## Concrete instances used by examples, witnesses and counterexamples -/

/-- A model exercising the texture-reference example
`{textures: {top: "#all", all: "block/stone"}}`. -/
def refChainModel : BlockModel :=
  { textures := some [("top", "#all"), ("all", "block/stone")] }

/-- A model whose reference chain needs five dereferences, one more than the
cap admits. -/
def deepChainModel : BlockModel :=
  { textures := some [("a", "#b"), ("b", "#c"), ("c", "#d"), ("d", "#e"),
                      ("e", "#f"), ("f", "block/stone")] }

/-- A block with `facing=south`, for the multipart example. -/
def facingSouthBlock : Block := { name := "b", properties := [("facing", "south")] }

/-- The multipart blockstate of the example: one unconditional part and one
part gated on `facing=north|south`. -/
def multipartExample : BlockStateDefinition :=
  { multipart := some
      [{ when := none, apply := .single { model := "m1" } },
       { when := some (.simple [("facing", "north|south")]),
         apply := .single { model := "m2" } }] }

/-- An archive whose blockstate for `stone` is
`{"variants": {"": {"model": "block/stone"}}}`. -/
def stoneVariantStores : Stores :=
  ⟨fun id =>
      if id = "stone" then
        some (some { variants := some [("", .single { model := "block/stone" })] })
      else none,
    fun _ => none⟩

/-- An archive whose blockstate for `x` carries an empty holder array as its
sole variant — the input on which variant selection throws a `TypeError`. -/
def emptyArrayVariantStores : Stores :=
  ⟨fun id =>
      if id = "x" then some (some { variants := some [("", .list [])] })
      else none,
    fun _ => none⟩

/-- The first pack of the staleness scenario: `blockstates/stone.json`
containing `OLD`. -/
def c8Pack1 : AssetLoader.PackFiles :=
  ⟨[("assets/minecraft/blockstates/stone.json", "OLD")]⟩

/-- The second, later-loaded (higher-priority) pack: the same path containing
`NEW`. -/
def c8Pack2 : AssetLoader.PackFiles :=
  ⟨[("assets/minecraft/blockstates/stone.json", "NEW")]⟩

/-- The resource path read in the staleness scenario. -/
def c8Path : String := "blockstates/stone.json"

/-- State after loading the first pack. -/
def c8S1 : AssetLoader.AssetLoaderState :=
  AssetLoader.loadResourcePack {} "pack1" c8Pack1

/-- State after the first read (which caches `OLD`). -/
def c8S2 : AssetLoader.AssetLoaderState := (AssetLoader.getResourceStringS c8S1 c8Path).2

/-- State after loading the second pack on top. -/
def c8S3 : AssetLoader.AssetLoaderState :=
  AssetLoader.loadResourcePack c8S2 "pack2" c8Pack2

/-- An archive holding the three models of the parent-chain scenario at the
paths `a`, `b` and `c`. -/
def c4Stores (A B C : BlockModel) : Stores :=
  ⟨fun _ => none,
    fun p =>
      if p = "a" then some (some A)
      else if p = "b" then some (some B)
      else if p = "c" then some (some C)
      else none⟩

/-- An archive with an artificially cyclic parent chain: `a` has parent `b`
and `b` has parent `a`. -/
def c4CycStores : Stores :=
  ⟨fun _ => none,
    fun p =>
      if p = "a" then some (some { parent := some "b", textures := some [("t", "ta")] })
      else if p = "b" then
        some (some { parent := some "a", textures := some [("t", "tb")] })
      else none⟩

/-- A model element that is not the synthesized liquid element. -/
def c1CexElement : BlockModelElement := { from_ := (1, 2, 3), to_ := (15, 16, 15) }

/-- An archive whose `models/block/water.json` parses with its own element
list. -/
def c1CexStores : Stores :=
  ⟨fun _ => none,
    fun p =>
      if p = "block/water" then some (some { elements := some [c1CexElement] })
      else none⟩

/-! ## Helper lemmas -/

theorem isPrefixOf_hash_cons (c : Char) (cs : List Char) :
    ['#'].isPrefixOf (c :: cs) = ('#' == c) := by
  simp [List.isPrefixOf]

theorem isPrefixOf_append_drop (pat : List Char) (suf : List Char) :
    ∀ l : List Char, pat.isPrefixOf l = true →
      suf.isPrefixOf (l.drop pat.length) = (pat ++ suf).isPrefixOf l := by
  induction pat with
  | nil => intro l _; simp
  | cons p ps ih =>
    intro l h
    cases l with
    | nil => simp [List.isPrefixOf] at h
    | cons c cs =>
      simp only [List.isPrefixOf, Bool.and_eq_true] at h
      simp only [List.length_cons, List.drop_succ_cons, List.cons_append,
        List.isPrefixOf, h.1, Bool.true_and]
      exact ih cs h.2

/-- Stripping the first `minecraft:` from a string that neither starts with
`#` nor with `minecraft:#` cannot expose a leading `#`. -/
theorem stripMinecraft_no_hash (s : String)
    (h : jsStartsWith s "#" = false) (h' : jsStartsWith s "minecraft:#" = false) :
    jsStartsWith (stripMinecraft s) "#" = false := by
  unfold jsStartsWith stripMinecraft at *
  show ("#".data).isPrefixOf (removeFirstOcc s.data "minecraft:".data) = false
  rcases hd : s.data with _ | ⟨c, cs⟩
  · simp [removeFirstOcc, List.isPrefixOf]
  · rw [hd] at h h'
    unfold removeFirstOcc
    by_cases hp : ("minecraft:".data).isPrefixOf (c :: cs) = true
    · rw [if_pos hp]
      have hdrop := isPrefixOf_append_drop "minecraft:".data "#".data (c :: cs) hp
      rw [hdrop]
      exact h'
    · rw [if_neg hp]
      show ['#'].isPrefixOf (c :: _) = false
      rw [isPrefixOf_hash_cons]
      rw [show ("#".data) = ['#'] from rfl] at h
      rw [isPrefixOf_hash_cons] at h
      exact h

theorem mem_of_lookup_eq_some {l : List (String × String)} {k : String} {v : String}
    (h : l.lookup k = some v) : ∃ k', (k', v) ∈ l := by
  induction l with
  | nil => simp [List.lookup] at h
  | cons kv rest ih =>
    rw [List.lookup] at h
    rcases he : (k == kv.1) with _ | _
    · rw [he] at h
      obtain ⟨k', hk'⟩ := ih h
      exact ⟨k', List.mem_cons_of_mem _ hk'⟩
    · rw [he] at h
      refine ⟨kv.1, ?_⟩
      cases h
      simp

/-- Every reference produced by the dereference loop is the initial reference
or a value drawn from the textures map. -/
theorem derefLoop_preserves (txl : List (String × String)) (P : String → Prop)
    (hvals : ∀ kv ∈ txl, P kv.2) :
    ∀ (fuel : Nat) (ref : String), P ref →
      ∀ r rem, AssetLoader.derefLoop (some txl) fuel ref = some (r, rem) → P r := by
  intro fuel
  induction fuel with
  | zero =>
    intro ref hre r rem h
    unfold AssetLoader.derefLoop at h
    cases h
    exact hre
  | succ n ih =>
    intro ref hre r rem h
    unfold AssetLoader.derefLoop at h
    by_cases hs : jsStartsWith ref "#" = true
    · rw [if_pos hs] at h
      dsimp only at h
      rcases hl : (txl.lookup (jsDrop1 ref)) with _ | v
      · rw [hl] at h
        exact ih _ hre r rem h
      · rw [hl] at h
        refine ih _ ?_ r rem h
        show P (if v = "" then ref else v)
        by_cases hv : v = ""
        · rw [if_pos hv]; exact hre
        · rw [if_neg hv]
          obtain ⟨k', hm⟩ := mem_of_lookup_eq_some hl
          exact hvals (k', v) hm
    · rw [if_neg hs] at h
      cases h
      exact hre

/-! ## Claim C6 -/

/-- Claim C6: face-UV rotation is a cyclic group of order 4 over the
four-corner UV layout.  For every layout — in particular for a layout already
rotated by any base per-direction rotation `r` — applying the 90-degree
rotation of `applyUVRotation` four times returns the original layout, and
rotation by 180 equals rotation by 90 applied twice. -/
theorem claim_C6_uv_rotation_cyclic (uv : BlockMeshBuilder.UVCoords) (r : Int) :
    BlockMeshBuilder.applyUVRotation 90 (BlockMeshBuilder.applyUVRotation 90
        (BlockMeshBuilder.applyUVRotation 90 (BlockMeshBuilder.applyUVRotation 90 uv))) = uv
    ∧ BlockMeshBuilder.applyUVRotation 180 uv
        = BlockMeshBuilder.applyUVRotation 90 (BlockMeshBuilder.applyUVRotation 90 uv)
    ∧ BlockMeshBuilder.applyUVRotation 90 (BlockMeshBuilder.applyUVRotation 90
        (BlockMeshBuilder.applyUVRotation 90 (BlockMeshBuilder.applyUVRotation 90
          (BlockMeshBuilder.applyUVRotation r uv))))
      = BlockMeshBuilder.applyUVRotation r uv := by
  have h4 : ∀ w : BlockMeshBuilder.UVCoords,
      BlockMeshBuilder.applyUVRotation 90 (BlockMeshBuilder.applyUVRotation 90
        (BlockMeshBuilder.applyUVRotation 90 (BlockMeshBuilder.applyUVRotation 90 w))) = w := by
    intro w
    norm_num [BlockMeshBuilder.applyUVRotation]
  refine ⟨h4 uv, ?_, h4 _⟩
  norm_num [BlockMeshBuilder.applyUVRotation]

/-! ## Claim C5 -/

/-- Claim C5, counterexample: the empty reference does not start with `#`,
yet `resolveTexture` does not return it verbatim (namespace-stripped) — the
falsy-string guard sends it to the sentinel instead. -/
theorem claim_C5_cex_empty_ref :
    jsStartsWith "" "#" = false
    ∧ AssetLoader.resolveTexture "" {} ≠ stripMinecraft "" := by
  constructor
  · decide
  · decide

/-- Claim C5 (amended: verbatim return holds for nonempty references): a
nonempty reference not starting with `#` is returned verbatim except for
stripping a `minecraft:` prefix; `resolveTexture("#top", {textures: {top:
"#all", all: "block/stone"}}) = "block/stone"`; a chain that needs five
dereferences hits the cap (`depth >= MAX_DEPTH`) and yields the sentinel
`block/missing_texture`, as do a dangling reference and a model without a
textures map. -/
theorem claim_C5_resolveTexture (ref : String) (model : BlockModel)
    (h1 : ref ≠ "") (h2 : jsStartsWith ref "#" = false) :
    AssetLoader.resolveTexture ref model = stripMinecraft ref
    ∧ AssetLoader.resolveTexture "#top" refChainModel = "block/stone"
    ∧ AssetLoader.resolveTexture "#a" deepChainModel = "block/missing_texture"
    ∧ AssetLoader.resolveTexture "#x" { textures := some [] } = "block/missing_texture"
    ∧ AssetLoader.resolveTexture "#x" {} = "block/missing_texture" := by
  refine ⟨?_, by decide, by decide, by decide, by decide⟩
  have hne : ¬ (ref = "" ∨ ref = "#missing") := by
    rintro (rfl | rfl)
    · exact h1 rfl
    · exact absurd h2 (by decide)
  unfold AssetLoader.resolveTexture
  rw [if_neg hne, if_pos (by simp [h2])]

/-- Claim C5 witness: the amended theorem applied at the concrete reference
`minecraft:block/dirt`. -/
theorem claim_C5_witness :
    AssetLoader.resolveTexture "minecraft:block/dirt" {}
        = stripMinecraft "minecraft:block/dirt"
    ∧ AssetLoader.resolveTexture "#top" refChainModel = "block/stone"
    ∧ AssetLoader.resolveTexture "#a" deepChainModel = "block/missing_texture"
    ∧ AssetLoader.resolveTexture "#x" { textures := some [] } = "block/missing_texture"
    ∧ AssetLoader.resolveTexture "#x" {} = "block/missing_texture" :=
  claim_C5_resolveTexture "minecraft:block/dirt" {} (by decide) (by decide)

/-! ## Claim C9 -/

/-- Claim C9, counterexample: `resolveTexture("minecraft:#a", {})` strips the
`minecraft:` prefix from the literal reference and returns `#a`, which does
begin with `#`. -/
theorem claim_C9_cex_minecraft_hash :
    jsStartsWith (AssetLoader.resolveTexture "minecraft:#a" {}) "#" = true := by
  decide

/-- Claim C9 (amended: provided neither the reference nor any value in the
textures map begins with the pathological prefix `minecraft:#`): the result
of `resolveTexture` is always either the sentinel `block/missing_texture` or
the `minecraft:`-stripped form of some non-`#` string, and in particular it
never begins with `#`. -/
theorem claim_C9_no_unresolved_ref (ref : String) (model : BlockModel)
    (h1 : jsStartsWith ref "minecraft:#" = false)
    (h2 : ∀ kv ∈ model.textures.getD [], jsStartsWith kv.2 "minecraft:#" = false) :
    (AssetLoader.resolveTexture ref model = "block/missing_texture"
      ∨ ∃ s, jsStartsWith s "#" = false
          ∧ jsStartsWith s "minecraft:#" = false
          ∧ AssetLoader.resolveTexture ref model = stripMinecraft s)
    ∧ jsStartsWith (AssetLoader.resolveTexture ref model) "#" = false := by
  have main : AssetLoader.resolveTexture ref model = "block/missing_texture"
      ∨ ∃ s, jsStartsWith s "#" = false
          ∧ jsStartsWith s "minecraft:#" = false
          ∧ AssetLoader.resolveTexture ref model = stripMinecraft s := by
    unfold AssetLoader.resolveTexture
    by_cases he : ref = "" ∨ ref = "#missing"
    · rw [if_pos he]
      exact Or.inl rfl
    · rw [if_neg he]
      by_cases hh : jsStartsWith ref "#" = true
      · rw [if_neg (by simp [hh])]
        rcases htx : model.textures with _ | txl
        · have hnone : AssetLoader.derefLoop none AssetLoader.MAX_DEPTH ref = none := by
            simp [AssetLoader.derefLoop, AssetLoader.MAX_DEPTH, hh]
          rw [hnone]
          exact Or.inl rfl
        · rcases hres : AssetLoader.derefLoop (some txl) AssetLoader.MAX_DEPTH ref
            with _ | ⟨r, rem⟩
          · exact Or.inl rfl
          · dsimp only
            by_cases hg : rem = 0 ∨ jsStartsWith r "#" = true
            · rw [if_pos hg]
              exact Or.inl rfl
            · rw [if_neg hg]
              push_neg at hg
              have hr : jsStartsWith r "#" = false :=
                Bool.not_eq_true _ ▸ hg.2
              have hPr : jsStartsWith r "minecraft:#" = false := by
                refine derefLoop_preserves txl
                  (fun s => jsStartsWith s "minecraft:#" = false) ?_
                  AssetLoader.MAX_DEPTH ref h1 r rem hres
                intro kv hm
                exact h2 kv (by rw [htx]; simpa using hm)
              exact Or.inr ⟨r, hr, hPr, rfl⟩
      · rw [if_pos (by simp [hh])]
        exact Or.inr ⟨ref, by simpa using hh, h1, rfl⟩
  refine ⟨main, ?_⟩
  rcases main with hm | ⟨s, hs1, hs2, hm⟩
  · rw [hm]; decide
  · rw [hm]
    exact stripMinecraft_no_hash s hs1 hs2

/-- Claim C9 witness: the amended theorem applied at the example reference
chain. -/
theorem claim_C9_witness :
    (AssetLoader.resolveTexture "#top" refChainModel = "block/missing_texture"
      ∨ ∃ s, jsStartsWith s "#" = false
          ∧ jsStartsWith s "minecraft:#" = false
          ∧ AssetLoader.resolveTexture "#top" refChainModel = stripMinecraft s)
    ∧ jsStartsWith (AssetLoader.resolveTexture "#top" refChainModel) "#" = false :=
  claim_C9_no_unresolved_ref "#top" refChainModel (by decide) (by decide)

/-! ## Claim C3 -/

/-- Claim C3: multipart resolution returns, in entry order, the first `apply`
holder of every entry whose `when` condition holds — an absent `when` always
holds, `{OR: [...]}` holds when any sub-condition matches, and a plain map
holds exactly when every listed property of the block exists and equals the
required value, a `|`-joined value meaning any one of the alternatives.  The
quoted example (one unconditional part, one part gated on
`facing=north|south`, block with `facing=south`) yields both parts' models. -/
theorem claim_C3_multipart_semantics (block : Block)
    (conds : List (List (String × String))) (c : List (String × String))
    (v blockValue : String) (p : MultipartEntry) (rest : List MultipartEntry) :
    ModelResolver.multipartApplies block none = true
    ∧ ModelResolver.multipartApplies block (some (.or conds))
        = conds.any (ModelResolver.matchesCondition block)
    ∧ ModelResolver.multipartApplies block (some (.simple c))
        = ModelResolver.matchesCondition block c
    ∧ (ModelResolver.matchesCondition block c = true ↔
        ∀ pv ∈ c, ∃ bv, block.properties.lookup pv.1 = some bv
          ∧ ModelResolver.condValueMatches pv.2 bv = true)
    ∧ ModelResolver.condValueMatches v blockValue
        = (if jsContainsChar v '|' then (jsSplit v '|').contains blockValue
           else blockValue == v)
    ∧ ModelResolver.collectParts block (p :: rest)
        = (if ModelResolver.multipartApplies block p.when then
             (ModelResolver.applyFirst p.apply).bind fun d =>
               (ModelResolver.collectParts block rest).map (d :: ·)
           else ModelResolver.collectParts block rest)
    ∧ ModelResolver.resolveMultipart facingSouthBlock multipartExample
        = some [{ model := "m1" }, { model := "m2" }] := by
  refine ⟨rfl, rfl, rfl, ?_, rfl, ?_, by decide⟩
  · unfold ModelResolver.matchesCondition
    rw [List.all_eq_true]
    constructor
    · intro h pv hm
      have hpv := h pv hm
      rcases hl : block.properties.lookup pv.1 with _ | bv
      · rw [hl] at hpv
        exact absurd hpv (by simp)
      · rw [hl] at hpv
        exact ⟨bv, rfl, hpv⟩
    · intro h pv hm
      obtain ⟨bv, hl, hcm⟩ := h pv hm
      rw [hl]
      exact hcm
  · show ModelResolver.collectParts block (p :: rest) = _
    conv_lhs => unfold ModelResolver.collectParts
    by_cases ha : ModelResolver.multipartApplies block p.when = true
    · rw [if_pos ha, if_pos ha]
      rcases happ : ModelResolver.applyFirst p.apply with _ | d <;> rfl
    · rw [if_neg ha, if_neg ha]

/-! ## Claim C10 -/

theorem processVariantModel_ne_nil {v : VariantVal} {l : List BlockModelData}
    (h : ModelResolver.processVariantModel v = some l) : l ≠ [] := by
  cases v with
  | single hd => cases h; simp
  | list hs =>
    cases hs with
    | nil => cases h
    | cons hd tl => cases h; simp

theorem resolveVariants_ne_nil {block : Block} {bs : BlockStateDefinition}
    {l : List BlockModelData}
    (h : ModelResolver.resolveVariants block bs = some l) : l ≠ [] := by
  unfold ModelResolver.resolveVariants at h
  rcases hv : bs.variants with _ | variants
  · rw [hv] at h
    cases h; simp
  · rw [hv] at h
    dsimp only at h
    rcases hk : variants.lookup (ModelResolver.variantKeyOf block variants) with _ | v
    · rw [hk] at h
      rcases hh : variants.head? with _ | kv
      · rw [hh] at h
        cases h; simp
      · rw [hh] at h
        exact processVariantModel_ne_nil h
    · rw [hk] at h
      exact processVariantModel_ne_nil h

theorem resolveMultipart_ne_nil {block : Block} {bs : BlockStateDefinition}
    {l : List BlockModelData}
    (h : ModelResolver.resolveMultipart block bs = some l) : l ≠ [] := by
  unfold ModelResolver.resolveMultipart at h
  rcases hv : bs.multipart with _ | mp
  · rw [hv] at h
    cases h; simp
  · rw [hv] at h
    dsimp only at h
    rcases hc : ModelResolver.collectParts block mp with _ | models
    · rw [hc] at h
      cases h
    · rw [hc] at h
      dsimp only at h
      by_cases hm : models = []
      · rw [if_pos hm] at h
        cases h; simp
      · rw [if_neg hm] at h
        cases h; exact hm

/-- Claim C10, counterexample: on a blockstate whose sole variant is an empty
holder array, `resolveBlockModel` does not return a list at all — the
`variant[0].model` access throws (modelled as `none`), so the claim's
"always returns a non-empty list" fails. -/
theorem claim_C10_cex_empty_holder_array :
    ModelResolver.resolveBlockModel emptyArrayVariantStores { name := "x" } = none := by
  decide

/-- Claim C10 (amended: whenever resolution completes without the
empty-holder-array `TypeError`): every returned list is non-empty, and each
fallback path — no blockstate definition, an empty variants map, a multipart
list whose entries all fail — returns exactly the single default entry
`{model: "block/cube"}`. -/
theorem claim_C10_nonempty_result (st st₂ : Stores) (block block₂ block₃ block₄ : Block)
    (l : List BlockModelData) (mp : List MultipartEntry)
    (h1 : ModelResolver.resolveBlockModel st block = some l)
    (h2 : (ModelResolver.getBlockState st₂ (stripMinecraft block₂.name)).variants = none)
    (h3 : (ModelResolver.getBlockState st₂ (stripMinecraft block₂.name)).multipart = none)
    (h4 : ModelResolver.collectParts block₃ mp = some []) :
    l ≠ []
    ∧ ModelResolver.resolveBlockModel st₂ block₂ = some [ModelResolver.cubeData]
    ∧ ModelResolver.resolveMultipart block₃ { multipart := some mp }
        = some [ModelResolver.cubeData]
    ∧ ModelResolver.resolveVariants block₄ { variants := some [] }
        = some [ModelResolver.cubeData] := by
  refine ⟨?_, ?_, ?_, ?_⟩
  · unfold ModelResolver.resolveBlockModel at h1
    dsimp only at h1
    by_cases hnn : (ModelResolver.getBlockState st (stripMinecraft block.name)).variants.isNone
        ∧ (ModelResolver.getBlockState st (stripMinecraft block.name)).multipart.isNone
    · rw [if_pos hnn] at h1
      cases h1; simp
    · rw [if_neg hnn] at h1
      rcases hvv : (ModelResolver.getBlockState st (stripMinecraft block.name)).variants
        with _ | variants
      · rw [hvv] at h1
        rcases hmm : (ModelResolver.getBlockState st (stripMinecraft block.name)).multipart
          with _ | mp'
        · rw [hmm] at h1
          cases h1; simp
        · rw [hmm] at h1
          exact resolveMultipart_ne_nil h1
      · rw [hvv] at h1
        dsimp only at h1
        exact resolveVariants_ne_nil h1
  · unfold ModelResolver.resolveBlockModel
    dsimp only
    rw [if_pos ⟨by rw [h2]; rfl, by rw [h3]; rfl⟩]
  · unfold ModelResolver.resolveMultipart
    dsimp only
    rw [h4]
    rfl
  · unfold ModelResolver.resolveVariants
    dsimp only
    rw [List.lookup]
    rfl

/-- Claim C10 witness: the amended theorem applied at concrete inputs — a
blockstate-free archive, and a multipart whose only entry requires a property
the block lacks. -/
theorem claim_C10_witness :
    ([ModelResolver.cubeData] : List BlockModelData) ≠ []
    ∧ ModelResolver.resolveBlockModel emptyStores { name := "stone" }
        = some [ModelResolver.cubeData]
    ∧ ModelResolver.resolveMultipart { name := "y" }
        { multipart := some [{ when := some (.simple [("facing", "north")]),
                               apply := .single { model := "m" } }] }
        = some [ModelResolver.cubeData]
    ∧ ModelResolver.resolveVariants { name := "z" } { variants := some [] }
        = some [ModelResolver.cubeData] :=
  claim_C10_nonempty_result emptyStores emptyStores { name := "stone" }
    { name := "stone" } { name := "y" } { name := "z" } [ModelResolver.cubeData]
    [{ when := some (.simple [("facing", "north")]),
       apply := .single { model := "m" } }]
    (by decide) (by decide) (by decide) (by decide)

/-! ## Claim C2 -/

theorem buildVariantKeyER_eq (props : List (String × String)) (vp : List String) :
    EntityResolver.buildVariantKey props vp
      = String.intercalate ","
          (ModelResolver.sortStrings
            ((props.filter fun kv => vp.contains kv.1).map fun kv =>
              kv.1 ++ "=" ++ kv.2)) := by
  cases props with
  | nil => rfl
  | cons kv rest =>
    unfold EntityResolver.buildVariantKey
    rw [if_pos (by simp)]

theorem buildVariantKeyER_filter_invariant (props : List (String × String))
    (vp : List String) :
    EntityResolver.buildVariantKey (props.filter fun kv => vp.contains kv.1) vp
      = EntityResolver.buildVariantKey props vp := by
  rw [buildVariantKeyER_eq, buildVariantKeyER_eq, List.filter_filter]
  simp

theorem buildVariantKeyER_nil_valid (props : List (String × String)) :
    EntityResolver.buildVariantKey props [] = "" := by
  rw [buildVariantKeyER_eq]
  have hf : props.filter (fun kv => ([] : List String).contains kv.1) = [] := by
    induction props with
    | nil => rfl
    | cons kv rest ih => simp [List.filter, ih]
  rw [hf]
  rfl

/-- Claim C2: with a variants map, the candidate key is built only from the
block's properties whose names appear in some variant key (sorted,
comma-joined — adding or removing properties outside that set cannot change
it), the lookup order is exact key, then the empty-string variant, then any
single-property match, then the first variant in the map, a holder array is
consumed at index 0, and the blockstate
`{"variants":{"":{"model":"block/stone"}}}` resolves to exactly one model
entry whatever properties the block carries. -/
theorem claim_C2_variant_resolution
    (b₁ b₂ b₃ b₄ : Block)
    (vs₁ vs₂ vs₃ vs₄ : List (String × VariantVal)) (v₁ v₂ v₃ : VariantVal)
    (h1 : vs₁.lookup (EntityResolver.buildVariantKey b₁.properties
            (EntityResolver.validVariantProperties (vs₁.map (·.1)))) = some v₁)
    (h2 : vs₂.lookup (EntityResolver.buildVariantKey b₂.properties
            (EntityResolver.validVariantProperties (vs₂.map (·.1)))) = none)
    (h2e : vs₂.lookup "" = some v₂)
    (h3 : vs₃.lookup (EntityResolver.buildVariantKey b₃.properties
            (EntityResolver.validVariantProperties (vs₃.map (·.1)))) = none)
    (h3e : vs₃.lookup "" = none)
    (h3s : EntityResolver.firstSingleProp b₃.properties vs₃ = some v₃)
    (h4 : vs₄.lookup (EntityResolver.buildVariantKey b₄.properties
            (EntityResolver.validVariantProperties (vs₄.map (·.1)))) = none)
    (h4e : vs₄.lookup "" = none)
    (h4s : EntityResolver.firstSingleProp b₄.properties vs₄ = none) :
    EntityResolver.chooseVariant b₁ vs₁ = some v₁
    ∧ EntityResolver.chooseVariant b₂ vs₂ = some v₂
    ∧ EntityResolver.chooseVariant b₃ vs₃ = some v₃
    ∧ EntityResolver.chooseVariant b₄ vs₄ = vs₄.head?.map (·.2)
    ∧ (∀ (props : List (String × String)) (vp : List String),
        EntityResolver.buildVariantKey props vp
          = String.intercalate ","
              (ModelResolver.sortStrings
                ((props.filter fun kv => vp.contains kv.1).map fun kv =>
                  kv.1 ++ "=" ++ kv.2)))
    ∧ (∀ (props : List (String × String)) (vp : List String),
        EntityResolver.buildVariantKey (props.filter fun kv => vp.contains kv.1) vp
          = EntityResolver.buildVariantKey props vp)
    ∧ (∀ (h₀ : Holder) (hs : List Holder),
        ModelResolver.applyFirst (.list (h₀ :: hs))
          = some (ModelResolver.createModelData h₀))
    ∧ (∀ props : List (String × String),
        EntityResolver.resolveBlockModel stoneVariantStores
            { namespace_ := "minecraft", name := "stone", properties := props }
          = some [{ model := "block/stone" }]) := by
  refine ⟨?_, ?_, ?_, ?_, buildVariantKeyER_eq, buildVariantKeyER_filter_invariant,
    fun h₀ hs => rfl, ?_⟩
  · unfold EntityResolver.chooseVariant
    dsimp only
    rw [h1]
  · unfold EntityResolver.chooseVariant
    dsimp only
    rw [h2, h2e]
  · unfold EntityResolver.chooseVariant
    dsimp only
    rw [h3, h3e, h3s]
  · unfold EntityResolver.chooseVariant
    dsimp only
    rw [h4, h4e, h4s]
  · intro props
    unfold EntityResolver.resolveBlockModel
    dsimp only
    rw [show ModelResolver.getBlockState stoneVariantStores (stripMinecraft "stone")
        = { variants := some [("", .single { model := "block/stone" })] } from rfl]
    dsimp only
    have hcv : EntityResolver.chooseVariant
        { namespace_ := "minecraft", name := "stone", properties := props }
        [("", .single { model := "block/stone" })]
        = some (.single { model := "block/stone" }) := by
      unfold EntityResolver.chooseVariant
      dsimp only
      rw [show EntityResolver.validVariantProperties
            ([(("" : String), VariantVal.single { model := "block/stone" })].map (·.1))
          = [] from rfl]
      rw [buildVariantKeyER_nil_valid]
      rfl
    rw [hcv]
    rfl

/-- Claim C2 witness: the theorem applied at concrete variant maps — an exact
`axis=y` match, an empty-string fallback, a single-property `axis=y` retry
after a failed two-property key, and a first-variant fallback. -/
theorem claim_C2_witness :
    EntityResolver.chooseVariant { name := "log", properties := [("axis", "y")] }
        [("axis=y", .single { model := "block/log_y" })]
      = some (.single { model := "block/log_y" })
    ∧ EntityResolver.chooseVariant { name := "s", properties := [("facing", "south")] }
        [("", .single { model := "block/s" }),
         ("facing=north", .single { model := "block/s2" })]
      = some (.single { model := "block/s" })
    ∧ EntityResolver.chooseVariant
        { name := "log2", properties := [("axis", "y"), ("facing", "south")] }
        [("axis=y", .single { model := "block/log2_y" }),
         ("facing=north", .single { model := "block/b" })]
      = some (.single { model := "block/log2_y" })
    ∧ EntityResolver.chooseVariant { name := "w", properties := [("p", "q")] }
        [("facing=north", .single { model := "block/w" })]
      = ([(("facing=north" : String), VariantVal.single { model := "block/w" })].head?.map (·.2))
    ∧ (∀ (props : List (String × String)) (vp : List String),
        EntityResolver.buildVariantKey props vp
          = String.intercalate ","
              (ModelResolver.sortStrings
                ((props.filter fun kv => vp.contains kv.1).map fun kv =>
                  kv.1 ++ "=" ++ kv.2)))
    ∧ (∀ (props : List (String × String)) (vp : List String),
        EntityResolver.buildVariantKey (props.filter fun kv => vp.contains kv.1) vp
          = EntityResolver.buildVariantKey props vp)
    ∧ (∀ (h₀ : Holder) (hs : List Holder),
        ModelResolver.applyFirst (.list (h₀ :: hs))
          = some (ModelResolver.createModelData h₀))
    ∧ (∀ props : List (String × String),
        EntityResolver.resolveBlockModel stoneVariantStores
            { namespace_ := "minecraft", name := "stone", properties := props }
          = some [{ model := "block/stone" }]) :=
  claim_C2_variant_resolution
    { name := "log", properties := [("axis", "y")] }
    { name := "s", properties := [("facing", "south")] }
    { name := "log2", properties := [("axis", "y"), ("facing", "south")] }
    { name := "w", properties := [("p", "q")] }
    [("axis=y", .single { model := "block/log_y" })]
    [("", .single { model := "block/s" }),
     ("facing=north", .single { model := "block/s2" })]
    [("axis=y", .single { model := "block/log2_y" }),
     ("facing=north", .single { model := "block/b" })]
    [("facing=north", .single { model := "block/w" })]
    (.single { model := "block/log_y" }) (.single { model := "block/s" })
    (.single { model := "block/log2_y" })
    (by decide) (by decide) (by decide) (by decide) (by decide) (by decide)
    (by decide) (by decide) (by decide)

/-! ## Claim C1 -/

/-- On a liquid path carrying a `_level_N` suffix, the elements of the result
of `getModel` are always the single synthesized element, whatever the archive
contains. -/
theorem getModel_liquid_level_some (st : Stores) (p : String) (l : Nat)
    (hor : (jsStartsWith (stripMinecraft p) "block/water"
        || jsStartsWith (stripMinecraft p) "block/lava") = true)
    (hl : findLevel (stripMinecraft p).data = some l) :
    (AssetLoader.getModel st p).elements
      = some [AssetLoader.liquidElement
          (((if jsStartsWith (stripMinecraft p) "block/water" = true ∧ l = 0 then 14
             else if l = 0 then 16 else 16 - (l : Int) * 2 : Int)) : ℚ)] := by
  unfold AssetLoader.getModel
  rw [if_pos hor]
  dsimp only
  rw [hl]
  dsimp only [Option.getD, Option.isSome, Option.isNone]
  rcases hm : st.models (stripMinecraft p) with _ | c
  · rcases hb : st.models (if jsStartsWith (stripMinecraft p) "block/water" = true
        then "block/water" else "block/lava") with _ | c2
    · rfl
    · rcases c2 with _ | orig
      · rfl
      · simp [AssetLoader.liquidModelBase]
  · rcases c with _ | orig
    · rfl
    · simp [AssetLoader.liquidModelBase]

/-- On a liquid path with no `_level_N` suffix, the elements stay synthetic
whenever the archive offers no parsed model with elements at the exact
path. -/
theorem getModel_liquid_no_level (st : Stores) (p : String)
    (hor : (jsStartsWith (stripMinecraft p) "block/water"
        || jsStartsWith (stripMinecraft p) "block/lava") = true)
    (hl : findLevel (stripMinecraft p).data = none)
    (hm : match st.models (stripMinecraft p) with
          | some (some m) => m.elements = none
          | _ => True) :
    (AssetLoader.getModel st p).elements
      = some [AssetLoader.liquidElement
          (((if jsStartsWith (stripMinecraft p) "block/water" = true then 14
             else 16 : Int)) : ℚ)] := by
  unfold AssetLoader.getModel
  rw [if_pos hor]
  dsimp only
  rw [hl]
  dsimp only [Option.getD, Option.isSome, Option.isNone]
  rcases hmm : st.models (stripMinecraft p) with _ | c
  · simp [AssetLoader.liquidModelBase]
  · rcases c with _ | orig
    · simp [AssetLoader.liquidModelBase]
    · rw [hmm] at hm
      have hm2 : orig.elements = none := hm
      simp [AssetLoader.liquidModelBase, hm2]

/-- Claim C1, counterexample: with an archive whose `models/block/water.json`
parses to a model with elements, `getModel("block/water")` (water, level
defaulting to 0) returns those archive elements — a single element that is
neither from `[0,0,0]` nor of top height 14 — instead of the synthesized
liquid element the claim promises for every liquid path. -/
theorem claim_C1_cex_archive_elements :
    (AssetLoader.getModel c1CexStores "block/water").elements = some [c1CexElement]
    ∧ c1CexElement.from_ ≠ ((0 : ℚ), (0 : ℚ), (0 : ℚ))
    ∧ c1CexElement.to_.2.1 ≠ (14 : ℚ) := by
  refine ⟨by decide, by decide, by decide⟩

/-- Claim C1 (amended: except when the path has no `_level_N` suffix and the
archive's model file at that exact path parses with elements, which then
replace the synthetic one): `getModel` on a liquid path returns exactly one
synthesized element from `[0,0,0]` to `[16, h, 16]` whose top height `h` (in
0–16 units) is 14 for water at level 0, 16 for lava at level 0, and
`16 - 2*level` otherwise, the level coming from the `_level_N` suffix and
defaulting to 0; in particular `getModel("block/water_level_0")` yields
`to.y = 14` (14/16 of a block) and `getModel("block/water_level_4")` yields
`to.y = 8` (8/16). -/
theorem claim_C1_liquid_model_heights
    (st₁ st₂ st₃ st₄ : Stores) (p₁ p₂ p₃ p₄ : String) (l₁ l₂ : Nat)
    (hw₁ : jsStartsWith (stripMinecraft p₁) "block/water" = true)
    (hl₁ : findLevel (stripMinecraft p₁).data = some l₁)
    (hw₂ : jsStartsWith (stripMinecraft p₂) "block/water" = false)
    (hv₂ : jsStartsWith (stripMinecraft p₂) "block/lava" = true)
    (hl₂ : findLevel (stripMinecraft p₂).data = some l₂)
    (hw₃ : jsStartsWith (stripMinecraft p₃) "block/water" = true)
    (hl₃ : findLevel (stripMinecraft p₃).data = none)
    (hm₃ : match st₃.models (stripMinecraft p₃) with
           | some (some m) => m.elements = none
           | _ => True)
    (hw₄ : jsStartsWith (stripMinecraft p₄) "block/water" = false)
    (hv₄ : jsStartsWith (stripMinecraft p₄) "block/lava" = true)
    (hl₄ : findLevel (stripMinecraft p₄).data = none)
    (hm₄ : match st₄.models (stripMinecraft p₄) with
           | some (some m) => m.elements = none
           | _ => True) :
    (AssetLoader.getModel st₁ p₁).elements
      = some [AssetLoader.liquidElement
          (((if l₁ = 0 then 14 else 16 - (l₁ : Int) * 2 : Int)) : ℚ)]
    ∧ (AssetLoader.getModel st₂ p₂).elements
      = some [AssetLoader.liquidElement
          (((if l₂ = 0 then 16 else 16 - (l₂ : Int) * 2 : Int)) : ℚ)]
    ∧ (AssetLoader.getModel st₃ p₃).elements
      = some [AssetLoader.liquidElement 14]
    ∧ (AssetLoader.getModel st₄ p₄).elements
      = some [AssetLoader.liquidElement 16]
    ∧ (∀ h : ℚ, (AssetLoader.liquidElement h).from_ = (0, 0, 0)
        ∧ (AssetLoader.liquidElement h).to_ = (16, h, 16))
    ∧ (AssetLoader.getModel emptyStores "block/water_level_0").elements
        = some [AssetLoader.liquidElement 14]
    ∧ (AssetLoader.getModel emptyStores "block/water_level_4").elements
        = some [AssetLoader.liquidElement 8] := by
  refine ⟨?_, ?_, ?_, ?_, fun h => ⟨rfl, rfl⟩, by decide, by decide⟩
  · rw [getModel_liquid_level_some st₁ p₁ l₁ (by rw [hw₁]; rfl) hl₁]
    by_cases h0 : l₁ = 0 <;> simp [hw₁, h0]
  · rw [getModel_liquid_level_some st₂ p₂ l₂ (by rw [hw₂, hv₂]; rfl) hl₂]
    simp [hw₂]
  · rw [getModel_liquid_no_level st₃ p₃ (by rw [hw₃]; rfl) hl₃ hm₃]
    simp [hw₃]
  · rw [getModel_liquid_no_level st₄ p₄ (by rw [hw₄, hv₄]; rfl) hl₄ hm₄]
    simp [hw₄]

/-- Claim C1 witness: the amended theorem applied at the concrete paths
`block/water_level_2`, `block/lava_level_3`, `block/water` and `block/lava`
over the empty archive. -/
theorem claim_C1_witness :
    (AssetLoader.getModel emptyStores "block/water_level_2").elements
      = some [AssetLoader.liquidElement
          (((if 2 = 0 then 14 else 16 - (2 : Int) * 2 : Int)) : ℚ)]
    ∧ (AssetLoader.getModel emptyStores "block/lava_level_3").elements
      = some [AssetLoader.liquidElement
          (((if 3 = 0 then 16 else 16 - (3 : Int) * 2 : Int)) : ℚ)]
    ∧ (AssetLoader.getModel emptyStores "block/water").elements
      = some [AssetLoader.liquidElement 14]
    ∧ (AssetLoader.getModel emptyStores "block/lava").elements
      = some [AssetLoader.liquidElement 16]
    ∧ (∀ h : ℚ, (AssetLoader.liquidElement h).from_ = (0, 0, 0)
        ∧ (AssetLoader.liquidElement h).to_ = (16, h, 16))
    ∧ (AssetLoader.getModel emptyStores "block/water_level_0").elements
        = some [AssetLoader.liquidElement 14]
    ∧ (AssetLoader.getModel emptyStores "block/water_level_4").elements
        = some [AssetLoader.liquidElement 8] :=
  claim_C1_liquid_model_heights emptyStores emptyStores emptyStores emptyStores
    "block/water_level_2" "block/lava_level_3" "block/water" "block/lava" 2 3
    (by decide) (by decide) (by decide) (by decide) (by decide) (by decide)
    (by decide) (by trivial) (by decide) (by decide) (by decide) (by trivial)

/-! ## Claim C8 -/

/-- Claim C8 (code bug, evaluated at the failing input): `dispose` does clear
every cache and drop all packs, but `loadResourcePack` clears none of the
five caches — it only registers the pack at the front of the priority order.
Concretely: after loading a pack whose `blockstates/stone.json` is `OLD`,
reading it (which caches `OLD`), and then loading a second pack overriding
the path with `NEW`, a re-read still serves the stale `OLD` although a fresh
scan of the packs in priority order yields `NEW` — contradicting the claimed
"loading a new resource pack clears every cache ... re-resolution recomputes
results from the archives". -/
theorem claim_C8_cache_lifecycle :
    (∀ s : AssetLoader.AssetLoaderState,
      AssetLoader.dispose s = ({} : AssetLoader.AssetLoaderState))
    ∧ (∀ (s : AssetLoader.AssetLoaderState) (packId : String)
        (zip : AssetLoader.PackFiles),
        (AssetLoader.loadResourcePack s packId zip).stringCache = s.stringCache
        ∧ (AssetLoader.loadResourcePack s packId zip).blockStateCache
            = s.blockStateCache
        ∧ (AssetLoader.loadResourcePack s packId zip).modelCache = s.modelCache
        ∧ (AssetLoader.loadResourcePack s packId zip).textureCache = s.textureCache
        ∧ (AssetLoader.loadResourcePack s packId zip).materialCache
            = s.materialCache
        ∧ (AssetLoader.loadResourcePack s packId zip).resourcePackOrder
            = packId :: s.resourcePackOrder)
    ∧ (AssetLoader.getResourceStringS c8S1 c8Path).1 = some "OLD"
    ∧ (AssetLoader.getResourceStringS c8S3 c8Path).1 = some "OLD"
    ∧ AssetLoader.scanPacks c8S3.resourcePackOrder c8S3.resourcePacks c8Path
        = some "NEW" := by
  refine ⟨fun s => rfl, fun s packId zip => ⟨rfl, rfl, rfl, rfl, rfl, rfl⟩,
    by decide, by decide, by decide⟩

/-! ## Claim C7 -/

/-- Claim C7: building a block mesh never raises — the result of
`createBlockMesh` is always either the marked placeholder cube or a group of
the elements that built successfully (each element is built inside its own
try/catch, so one failing element leaves the rest intact, and zero surviving
elements give the placeholder); a model without elements — in particular the
empty model every path yields when no resource pack is loaded — gives the
placeholder, and the whole `getBlockMesh` pipeline on the empty archive
returns the marked placeholder cube. -/
theorem claim_C7_mesh_never_throws (model : BlockModel)
    (t : BlockMeshBuilder.Transform) (b : Option Block) (biome : String)
    (es : List BlockModelElement) (hes : model.elements = some es) :
    (BlockMeshBuilder.createBlockMesh model t b biome = .placeholderCube
      ∨ ∃ ch, ch ≠ []
          ∧ BlockMeshBuilder.createBlockMesh model t b biome
              = .blockGroup ch t.y t.x (b.or t.block) biome)
    ∧ BlockMeshBuilder.createBlockMesh model t b biome
        = (if (es.filterMap fun e =>
              (BlockMeshBuilder.createElementMesh e model (b.or t.block)).toOption) = []
           then BlockMeshBuilder.Obj.placeholderCube
           else .blockGroup
              (es.filterMap fun e =>
                (BlockMeshBuilder.createElementMesh e model (b.or t.block)).toOption)
              t.y t.x (b.or t.block) biome)
    ∧ (∀ (t' : BlockMeshBuilder.Transform) (b' : Option Block) (biome' : String),
        BlockMeshBuilder.createBlockMesh {} t' b' biome' = .placeholderCube)
    ∧ BlockMesh.getBlockMesh emptyStores "minecraft:stone" "plains"
        = .placeholderCube := by
  have part2 : BlockMeshBuilder.createBlockMesh model t b biome
      = (if (es.filterMap fun e =>
            (BlockMeshBuilder.createElementMesh e model (b.or t.block)).toOption) = []
         then BlockMeshBuilder.Obj.placeholderCube
         else .blockGroup
            (es.filterMap fun e =>
              (BlockMeshBuilder.createElementMesh e model (b.or t.block)).toOption)
            t.y t.x (b.or t.block) biome) := by
    unfold BlockMeshBuilder.createBlockMesh
    rw [hes]
    cases es with
    | nil => simp
    | cons e tl => rfl
  refine ⟨?_, part2, fun t' b' biome' => rfl, rfl⟩
  rw [part2]
  by_cases hch : (es.filterMap fun e =>
      (BlockMeshBuilder.createElementMesh e model (b.or t.block)).toOption) = []
  · rw [if_pos hch]
    exact Or.inl rfl
  · rw [if_neg hch]
    exact Or.inr ⟨_, hch, rfl⟩

/-- Claim C7 witness: the theorem applied at a concrete one-element model. -/
theorem claim_C7_witness :
    (BlockMeshBuilder.createBlockMesh { elements := some [AssetLoader.liquidElement 16] }
        {} none "plains" = .placeholderCube
      ∨ ∃ ch, ch ≠ []
          ∧ BlockMeshBuilder.createBlockMesh
                { elements := some [AssetLoader.liquidElement 16] } {} none "plains"
              = .blockGroup ch ({} : BlockMeshBuilder.Transform).y
                  ({} : BlockMeshBuilder.Transform).x
                  (Option.or none ({} : BlockMeshBuilder.Transform).block) "plains")
    ∧ BlockMeshBuilder.createBlockMesh { elements := some [AssetLoader.liquidElement 16] }
          {} none "plains"
        = (if ([AssetLoader.liquidElement 16].filterMap fun e =>
              (BlockMeshBuilder.createElementMesh e
                { elements := some [AssetLoader.liquidElement 16] }
                (Option.or none ({} : BlockMeshBuilder.Transform).block)).toOption) = []
           then BlockMeshBuilder.Obj.placeholderCube
           else .blockGroup
              ([AssetLoader.liquidElement 16].filterMap fun e =>
                (BlockMeshBuilder.createElementMesh e
                  { elements := some [AssetLoader.liquidElement 16] }
                  (Option.or none ({} : BlockMeshBuilder.Transform).block)).toOption)
              ({} : BlockMeshBuilder.Transform).y ({} : BlockMeshBuilder.Transform).x
              (Option.or none ({} : BlockMeshBuilder.Transform).block) "plains")
    ∧ (∀ (t' : BlockMeshBuilder.Transform) (b' : Option Block) (biome' : String),
        BlockMeshBuilder.createBlockMesh {} t' b' biome' = .placeholderCube)
    ∧ BlockMesh.getBlockMesh emptyStores "minecraft:stone" "plains"
        = .placeholderCube :=
  claim_C7_mesh_never_throws { elements := some [AssetLoader.liquidElement 16] }
    {} none "plains" [AssetLoader.liquidElement 16] rfl

/-! ## Claim C4 -/

theorem lookup_append (l₁ l₂ : List (String × String)) (k : String) :
    (l₁ ++ l₂).lookup k = ((l₁.lookup k).or (l₂.lookup k)) := by
  induction l₁ with
  | nil => simp [List.lookup]
  | cons kv rest ih =>
    rcases he : (k == kv.1) with _ | _
    · simp [List.lookup, he, ih]
    · simp [List.lookup, he]

theorem lookup_mapOverride (a b : List (String × String)) (k : String) :
    ((a.map fun kv => (kv.1, (b.lookup kv.1).getD kv.2)).lookup k)
      = (a.lookup k).map fun v => (b.lookup k).getD v := by
  induction a with
  | nil => simp [List.lookup]
  | cons kv rest ih =>
    rcases he : (k == kv.1) with _ | _
    · simp [List.lookup, he, ih]
    · have hk : k = kv.1 := eq_of_beq he
      subst hk
      simp [List.lookup]

theorem lookup_filterNone (a b : List (String × String)) (k : String) :
    ((b.filter fun kv => (a.lookup kv.1).isNone).lookup k)
      = if (a.lookup k).isSome then none else b.lookup k := by
  induction b with
  | nil => cases h : (a.lookup k).isSome <;> simp [List.lookup, h]
  | cons kv rest ih =>
    rcases hf : ((a.lookup kv.1).isNone) with _ | _
    · have hfil : (List.filter (fun kv => (a.lookup kv.1).isNone) (kv :: rest))
          = List.filter (fun kv => (a.lookup kv.1).isNone) rest := by
        simp [List.filter, hf]
      rw [hfil]
      rcases he : (k == kv.1) with _ | _
      · simp [List.lookup, he, ih]
      · have hk : k = kv.1 := eq_of_beq he
        have hs : (a.lookup k).isSome = true := by
          rw [hk]
          rcases hx : a.lookup kv.1 with _ | v
          · rw [hx] at hf; simp at hf
          · rfl
        rw [ih, if_pos hs, if_pos hs]
    · have hfil : (List.filter (fun kv => (a.lookup kv.1).isNone) (kv :: rest))
          = kv :: List.filter (fun kv => (a.lookup kv.1).isNone) rest := by
        simp [List.filter, hf]
      rw [hfil]
      rcases he : (k == kv.1) with _ | _
      · simp [List.lookup, he, ih]
      · have hk : k = kv.1 := eq_of_beq he
        rw [Option.isNone_iff_eq_none] at hf
        have hn : a.lookup k = none := by rw [hk]; exact hf
        simp [List.lookup, he, hn]

theorem lookup_jsMergeObj (a b : List (String × String)) (k : String) :
    (jsMergeObj a b).lookup k = (b.lookup k).or (a.lookup k) := by
  unfold jsMergeObj
  rw [lookup_append, lookup_mapOverride, lookup_filterNone]
  rcases ha : a.lookup k with _ | v
  · simp
  · rcases hb : b.lookup k with _ | w <;> simp

theorem mergeLoop_step (models : String → Option (Option BlockModel)) (fuel : Nat)
    (cur : BlockModel) (pp : String) (hne : ¬ pp = "") (pm : BlockModel)
    (hm : models (stripMinecraft pp) = some (some pm)) :
    AssetLoader.mergeLoop models (fuel + 1) cur pp
      = AssetLoader.mergeLoop models fuel (AssetLoader.spreadMerge pm cur)
          (pm.parent.getD "") := by
  conv_lhs => unfold AssetLoader.mergeLoop
  rw [if_neg hne]
  dsimp only
  rw [hm]

theorem mergeLoop_stop (models : String → Option (Option BlockModel)) (fuel : Nat)
    (cur : BlockModel) :
    AssetLoader.mergeLoop models (fuel + 1) cur "" = cur := by
  conv_lhs => unfold AssetLoader.mergeLoop
  rw [if_pos rfl]

/-- Evaluating `getModel` on the `a → b → c` chain: the parent field is
stripped, the textures maps of the chain are merged child-first, and the
elements come from the nearest model that has any. -/
theorem c4_getModel_eq (A B C : BlockModel)
    (hA : A.parent = some "b") (hB : B.parent = some "c") (hC : C.parent = none) :
    AssetLoader.getModel (c4Stores A B C) "a"
      = { parent := none,
          textures := some (jsMergeObj (C.textures.getD [])
            (jsMergeObj (B.textures.getD []) (A.textures.getD []))),
          elements := (A.elements.or B.elements).or C.elements } := by
  have hsa : (c4Stores A B C).models (stripMinecraft "a") = some (some A) := by
    simp only [c4Stores]
    rw [show stripMinecraft "a" = "a" from rfl, if_pos rfl]
  have hsb : (c4Stores A B C).models (stripMinecraft "b") = some (some B) := by
    simp only [c4Stores]
    rw [show stripMinecraft "b" = "b" from rfl,
      if_neg (by decide : ¬ ("b" : String) = "a"), if_pos rfl]
  have hsc : (c4Stores A B C).models (stripMinecraft "c") = some (some C) := by
    simp only [c4Stores]
    rw [show stripMinecraft "c" = "c" from rfl,
      if_neg (by decide : ¬ ("c" : String) = "a"),
      if_neg (by decide : ¬ ("c" : String) = "b"), if_pos rfl]
  have hloop : AssetLoader.mergeLoop (c4Stores A B C).models 5 A "b"
      = AssetLoader.spreadMerge C (AssetLoader.spreadMerge B A) := by
    have s1 := mergeLoop_step (c4Stores A B C).models 4 A "b"
      (by decide) B hsb
    have s2 := mergeLoop_step (c4Stores A B C).models 3
      (AssetLoader.spreadMerge B A) "c" (by decide) C hsc
    rw [hB] at s1
    rw [hC] at s2
    have s3 := mergeLoop_stop (c4Stores A B C).models 2
      (AssetLoader.spreadMerge C (AssetLoader.spreadMerge B A))
    exact s1.trans (s2.trans s3)
  unfold AssetLoader.getModel
  rw [if_neg (by decide :
    ¬ ((jsStartsWith (stripMinecraft "a") "block/water"
        || jsStartsWith (stripMinecraft "a") "block/lava") = true))]
  rw [hsa]
  dsimp only
  rw [hA]
  rw [if_pos (by decide : ¬ ((some ("b" : String)).getD "" = ""))]
  unfold AssetLoader.loadAndMergeModel
  rw [hA]
  rw [if_neg (by decide : ¬ ((some ("b" : String)).getD "" = ""))]
  rw [show ((some ("b" : String)).getD "") = "b" from rfl]
  rw [show AssetLoader.MAX_DEPTH = 5 from rfl, hloop]
  rfl

/-- Claim C4: with model `A` (parent `B`), `B` (parent `C`), `C` (no parent,
elements `E`) and `A`, `B` themselves element-free, `getModel(A)` returns a
merged model whose elements are exactly `E`, whose textures map is the
additive merge of the chain with child entries winning (witnessed per key by
`lookup`), and which carries no `parent` field; the merge loop is capped at
`MAX_DEPTH = 5` parent steps, and on an artificially cyclic two-model chain
`getModel` still terminates, returning a fully merged parent-free model. -/
theorem claim_C4_parent_chain_merge (A B C : BlockModel) (E : List BlockModelElement)
    (hA : A.parent = some "b") (hB : B.parent = some "c") (hC : C.parent = none)
    (hAe : A.elements = none) (hBe : B.elements = none) (hCe : C.elements = some E) :
    (AssetLoader.getModel (c4Stores A B C) "a").elements = some E
    ∧ (AssetLoader.getModel (c4Stores A B C) "a").parent = none
    ∧ (∀ k : String,
        ((AssetLoader.getModel (c4Stores A B C) "a").textures.getD []).lookup k
          = ((A.textures.getD []).lookup k).or
              (((B.textures.getD []).lookup k).or ((C.textures.getD []).lookup k)))
    ∧ AssetLoader.MAX_DEPTH = 5
    ∧ AssetLoader.getModel c4CycStores "a"
        = { parent := none, textures := some [("t", "ta")], elements := none } := by
  rw [c4_getModel_eq A B C hA hB hC]
  refine ⟨?_, rfl, ?_, rfl, by decide⟩
  · rw [hAe, hBe, hCe]
    rfl
  · intro k
    dsimp only
    rw [show (some (jsMergeObj (C.textures.getD [])
        (jsMergeObj (B.textures.getD []) (A.textures.getD [])))).getD []
      = jsMergeObj (C.textures.getD [])
          (jsMergeObj (B.textures.getD []) (A.textures.getD [])) from rfl]
    rw [lookup_jsMergeObj, lookup_jsMergeObj, Option.or_assoc]

/-- Claim C4 witness: the theorem applied at a concrete three-model chain. -/
theorem claim_C4_witness :
    (AssetLoader.getModel (c4Stores { parent := some "b", textures := some [("t", "ta")] }
        { parent := some "c", textures := some [("t", "tb"), ("u", "ub")] }
        { textures := some [("w", "wc")],
          elements := some [AssetLoader.liquidElement 16] }) "a").elements
      = some [AssetLoader.liquidElement 16]
    ∧ (AssetLoader.getModel (c4Stores { parent := some "b", textures := some [("t", "ta")] }
        { parent := some "c", textures := some [("t", "tb"), ("u", "ub")] }
        { textures := some [("w", "wc")],
          elements := some [AssetLoader.liquidElement 16] }) "a").parent = none
    ∧ (∀ k : String,
        ((AssetLoader.getModel (c4Stores
            { parent := some "b", textures := some [("t", "ta")] }
            { parent := some "c", textures := some [("t", "tb"), ("u", "ub")] }
            { textures := some [("w", "wc")],
              elements := some [AssetLoader.liquidElement 16] }) "a").textures.getD
          []).lookup k
          = Option.or ([(("t" : String), ("ta" : String))].lookup k)
              (Option.or ([(("t" : String), ("tb" : String)), ("u", "ub")].lookup k)
                ([(("w" : String), ("wc" : String))].lookup k)))
    ∧ AssetLoader.MAX_DEPTH = 5
    ∧ AssetLoader.getModel c4CycStores "a"
        = { parent := none, textures := some [("t", "ta")], elements := none } :=
  claim_C4_parent_chain_merge
    { parent := some "b", textures := some [("t", "ta")] }
    { parent := some "c", textures := some [("t", "tb"), ("u", "ub")] }
    { textures := some [("w", "wc")], elements := some [AssetLoader.liquidElement 16] }
    [AssetLoader.liquidElement 16] rfl rfl rfl rfl rfl rfl

end Cubane
